import Mathlib

/-
  Shallow embedding of the status-update reconciliation core of the
  ac-task CLI (src/commands/update-status.ts, src/api/client.ts,
  src/utils/errorHandler.ts), together with proofs about the claims of
  the specification.
-/

namespace ACTaskCLI

/-- Runtime value of the `is_completed` field as it may appear in a remote
response: JavaScript boolean, number, or null. Strict equality (`===`) on
these values is modelled by decidable equality on this type. -/
inductive JsVal where
  | jsBool (b : Bool)
  | jsNum (n : Int)
  | jsNull
  deriving DecidableEq

/-- Task record (the fields of `ACTask` used by the reconciliation core:
id, task_number, name, and the completion flag that may be boolean or
0/1 encoded). From src/types/activecollab.ts. -/
structure ACTask where
  id : Nat
  task_number : Nat
  name : String
  is_completed : JsVal
  deriving DecidableEq

/-- Response body of a mutate or read call: the task record is either the
bare response object or wrapped under a `single` key.  The expression
`response.data.single || response.data` in the source picks the wrapped
record when present. -/
inductive RespData where
  | bare (t : ACTask)
  | wrapped (t : ACTask)
  deriving DecidableEq

/-- Embedding of `response.data.single || response.data` (update-status.ts
lines 187, 226, 238). -/
def extractTask : RespData → ACTask
  | .bare t => t
  | .wrapped t => t

/-- Failure of an HTTP call at the wire level, before the client's
response interceptor transforms it: either no response at all (network
failure) or an HTTP error status. -/
inductive WireErr where
  | network
  | http (status : Nat)
  deriving DecidableEq

/-- Error categories of `ACTaskError` (src/types, src/utils/errorHandler.ts). -/
inductive ErrType where
  | NETWORK_ERROR
  | AUTH_ERROR
  | API_ERROR
  | VALIDATION_ERROR
  | CONFIGURATION_ERROR
  | UNKNOWN_ERROR
  deriving DecidableEq

/-- The `ACTaskError` class: semantic type plus numeric code.  An
`ACTaskError` has no `response` field. -/
structure ACTaskErr where
  type : ErrType
  code : Nat
  deriving DecidableEq

/-- Embedding of `fromAxiosError` (src/utils/errorHandler.ts lines 43-91):
network failures become NETWORK_ERROR code 0; 401/403 become AUTH_ERROR;
404 becomes API_ERROR 404; anything else a generic API_ERROR carrying the
status. -/
def fromAxiosError : WireErr → ACTaskErr
  | .network => ⟨.NETWORK_ERROR, 0⟩
  | .http s =>
    if s = 401 then ⟨.AUTH_ERROR, 401⟩
    else if s = 403 then ⟨.AUTH_ERROR, 403⟩
    else if s = 404 then ⟨.API_ERROR, 404⟩
    else ⟨.API_ERROR, s⟩

/-- A JavaScript error value as seen by a catch block in the command code:
either an `ACTaskError` instance (which carries no `response` field), or a
raw error with an optional `response.status`. -/
inductive ThrownErr where
  | acErr (e : ACTaskErr)
  | rawAxios (responseStatus : Option Nat)
  deriving DecidableEq

/-- Embedding of the client's response interceptor (src/api/client.ts lines
104-122): any rejected call is re-thrown as `fromAxiosError err`, so every
error surfaced by `client.put` / `client.get` is an `ACTaskError`. -/
def clientCall (wire : Except WireErr RespData) : Except ACTaskErr RespData :=
  match wire with
  | .ok r => .ok r
  | .error w => .error (fromAxiosError w)

/-- Endpoints targeted by the mutation PUT calls of the resolver. -/
inductive Endpoint where
  | completeTask (taskId : Nat)
  | openTask (taskId : Nat)
  | projectTask (projectId taskId : Nat)
  deriving DecidableEq

/-- Body of a mutation PUT call: empty (canonical endpoints) or the
fallback payload `{ is_completed: 1|0, completed_on: <unix-seconds>|null }`. -/
inductive PutBody where
  | empty
  | completion (is_completed : Nat) (completed_on : Option Nat)
  deriving DecidableEq

/-- One outbound mutation call. -/
structure PutCall where
  endpoint : Endpoint
  body : PutBody
  deriving DecidableEq

/-- Whether a mutation call is the fallback generic update
(`PUT /projects/{p}/tasks/{id}`). -/
def PutCall.isFallback (c : PutCall) : Bool :=
  match c.endpoint with
  | .projectTask _ _ => true
  | _ => false

/-- Embedding of the fallback condition of update-status.ts line 230:
`err instanceof ACTaskError || err.response?.status === 404 ||
err.response?.status === 405`. -/
def fallbackGuard : ThrownErr → Bool
  | .acErr _ => true
  | .rawAxios s => s = some 404 || s = some 405

deriving instance DecidableEq for Except

/-- Result of one invocation of the endpoint resolver: the value returned
or error thrown, plus the list of outbound mutation calls issued, in
order. -/
structure ResolverRun where
  result : Except ThrownErr ACTask
  calls : List PutCall
  deriving DecidableEq

/-- Canonical endpoint selection (update-status.ts line 221):
`complete ? /complete/task/{id} : /open/task/{id}`. -/
def canonicalEndpoint (taskId : Nat) (complete : Bool) : Endpoint :=
  if complete then .completeTask taskId else .openTask taskId

/-- Embedding of `updateTaskCompletionStatus` (update-status.ts lines
215-244).  `canonicalWire` and `fallbackWire` are the wire-level outcomes
the remote would give to the canonical and the fallback call; `now` is
`Math.floor(Date.now() / 1000)`, the current unix time in seconds.  The
canonical endpoint is tried first with an empty body; on error the thrown
value is the `ACTaskError` produced by the client interceptor, the guard
of line 230 is evaluated on it, and on success of the guard the fallback
`PUT /projects/{p}/tasks/{id}` is issued once with the completion
payload; otherwise the error is re-thrown. -/
def updateTaskCompletionStatus (projectId taskId : Nat) (complete : Bool)
    (canonicalWire fallbackWire : Except WireErr RespData) (now : Nat) :
    ResolverRun :=
  let canonicalCall : PutCall := ⟨canonicalEndpoint taskId complete, .empty⟩
  match clientCall canonicalWire with
  | .ok resp => ⟨.ok (extractTask resp), [canonicalCall]⟩
  | .error e =>
    let err : ThrownErr := .acErr e
    if fallbackGuard err then
      let payload : PutBody :=
        if complete then .completion 1 (some now) else .completion 0 none
      let fallbackCall : PutCall := ⟨.projectTask projectId taskId, payload⟩
      match clientCall fallbackWire with
      | .ok resp => ⟨.ok (extractTask resp), [canonicalCall, fallbackCall]⟩
      | .error e2 => ⟨.error (.acErr e2), [canonicalCall, fallbackCall]⟩
    else ⟨.error err, [canonicalCall]⟩

/-- Embedding of `task.is_completed === true || task.is_completed === 1`,
the normalization of the completion flag used at update-status.ts lines
189 (verifier) and 303 (orchestrator output). -/
def normCompleted (v : JsVal) : Bool :=
  v = JsVal.jsBool true || v = JsVal.jsNum 1

/-- Backoff schedule of the verifier (update-status.ts line 183):
`const delays = [500, 1000, 2000]`. -/
def delays : List Nat := [500, 1000, 2000]

/-- Event in a verifier run: a GET read of the task (with its attempt
index and the task record obtained), or a call of `delay(delays[attempt])`.
The argument of a wait is `delays[attempt]` as JavaScript evaluates it:
`none` models `undefined` when the index is out of the schedule's range
(possible only when maxRetries exceeds 3). -/
inductive Ev where
  | read (attempt : Nat) (t : ACTask)
  | wait (ms : Option Nat)
  deriving DecidableEq

/-- Result of a verifier run: the task record returned, the attempt index
at which it returned, and the full trace of reads and waits in order. -/
structure VerifyRun where
  task : ACTask
  attemptsUsed : Nat
  trace : List Ev
  deriving DecidableEq

/-- The error thrown after the verifier loop, `new ACTaskError('API_ERROR',
'Failed to verify task status after retries', 1, ...)` (update-status.ts
lines 204-209). -/
def verifyExhaustedErr : ACTaskErr := ⟨.API_ERROR, 1⟩

/-- Embedding of the loop of `verifyTaskStatus` (update-status.ts lines
185-202), one recursive step per iteration `attempt`.  `reads i` is the
response body of the (i+1)-th GET.  On a match the task is returned at
once; on a mismatch with attempts remaining, `delay(delays[attempt])` runs
and the loop continues; on the final attempt the last-observed task is
returned.  Falling out of the loop would throw `verifyExhaustedErr`. -/
def verifyGo (reads : Nat → RespData) (expected : Bool) (maxRetries : Nat)
    (attempt : Nat) : Except ACTaskErr VerifyRun :=
  if _ : attempt ≤ maxRetries then
    let task := extractTask (reads attempt)
    let actual := normCompleted task.is_completed
    if actual = expected then
      .ok ⟨task, attempt, [.read attempt task]⟩
    else if _ : attempt < maxRetries then
      match verifyGo reads expected maxRetries (attempt + 1) with
      | .ok r =>
          .ok ⟨r.task, r.attemptsUsed,
               .read attempt task :: .wait delays[attempt]? :: r.trace⟩
      | .error e => .error e
    else
      .ok ⟨task, attempt, [.read attempt task]⟩
  else
    .error verifyExhaustedErr
termination_by maxRetries + 1 - attempt
decreasing_by omega

/-- Embedding of `verifyTaskStatus` (update-status.ts lines 176-210): the
loop starting at attempt 0, with `maxRetries` defaulting to 3. -/
def verifyTaskStatus (reads : Nat → RespData) (expected : Bool)
    (maxRetries : Nat := 3) : Except ACTaskErr VerifyRun :=
  verifyGo reads expected maxRetries 0

/-- One externally visible step of an orchestrator run: an outbound
mutation PUT issued by the resolver, or a verifier event (read or wait). -/
inductive Step where
  | put (c : PutCall)
  | verify (e : Ev)
  deriving DecidableEq

/-- Whether a step is a mutation call. -/
def Step.isPut : Step → Bool
  | .put _ => true
  | .verify _ => false

/-- Whether a step is a verifier read. -/
def Step.isRead : Step → Bool
  | .verify (.read _ _) => true
  | _ => false

/-- Task object placed in the JSON outcome (update-status.ts lines
309-314): id, task_number, name, and the normalized completion flag. -/
structure JsonTask where
  id : Nat
  task_number : Nat
  name : String
  is_completed : Bool
  deriving DecidableEq

/-- The warning string attached on a mismatch (update-status.ts line 316). -/
def warningText : String :=
  "Status update sent but server returned different value. Check manually."

/-- JSON outcome of the handler (update-status.ts lines 307-318):
`success`, the task object, and the `warning` key that is present only
when the server returned a different value. -/
structure JsonOutcome where
  success : Bool
  task : JsonTask
  warning : Option String
  deriving DecidableEq

/-- Keys present in the serialized JSON outcome object, in order: the
`warning` key is spread in only when a warning exists. -/
def outcomeKeys (o : JsonOutcome) : List String :=
  ["success", "task"] ++ (if o.warning.isSome then ["warning"] else [])

/-- Result of one orchestrator run: the outcome returned or the error
thrown out of the try block, plus the ordered trace of outbound steps. -/
structure HandlerRun where
  result : Except ThrownErr JsonOutcome
  steps : List Step
  deriving DecidableEq

/-- Embedding of the core of `updateStatusHandler` (update-status.ts lines
294-318) after validation: `statusDone` is `normalizedStatus === 'done'`
(the expected completion state).  The resolver runs first; if it throws,
its error propagates and no verifier read is issued.  Otherwise the
verifier runs with the default 3 retries, the final flag is normalized
(line 303), and the JSON outcome is built with `success` true exactly when
the verified state matches.  The unreachable error of the verifier would
propagate like any thrown error. -/
def updateStatusHandler (projectId taskId : Nat) (statusDone : Bool)
    (canonicalWire fallbackWire : Except WireErr RespData) (now : Nat)
    (reads : Nat → RespData) : HandlerRun :=
  let expectedCompleted := statusDone
  let m := updateTaskCompletionStatus projectId taskId expectedCompleted
    canonicalWire fallbackWire now
  match m.result with
  | .error e => ⟨.error e, m.calls.map Step.put⟩
  | .ok _ =>
    match verifyTaskStatus reads expectedCompleted with
    | .error e => ⟨.error (.acErr e), m.calls.map Step.put⟩
    | .ok r =>
      let task := r.task
      let actualCompleted := normCompleted task.is_completed
      let outcome : JsonOutcome :=
        { success := actualCompleted = expectedCompleted
          task := ⟨task.id, task.task_number, task.name, actualCompleted⟩
          warning :=
            if actualCompleted ≠ expectedCompleted then some warningText
            else none }
      ⟨.ok outcome, m.calls.map Step.put ++ r.trace.map Step.verify⟩

/-- Whether a verifier event is a read. -/
def Ev.isRead : Ev → Bool
  | .read _ _ => true
  | .wait _ => false

/-- Argument of a wait event, if the event is one. -/
def Ev.waitArg : Ev → Option (Option Nat)
  | .wait d => some d
  | .read _ _ => none

/-- Number of GET reads in a verifier trace. -/
def readCount (tr : List Ev) : Nat := (tr.filter Ev.isRead).length

/-- Arguments of the delay calls of a trace, in order. -/
def waitsOf (tr : List Ev) : List (Option Nat) := tr.filterMap Ev.waitArg

/-- Trace shape of a verifier run that starts at attempt `a` and returns
at attempt `j`: the reads for attempts `a, ..., j` with the scheduled
delay strictly between consecutive reads, and nothing after the final
read. -/
def verifyTrace (reads : Nat → RespData) (a j : Nat) : List Ev :=
  (List.range' a (j - a)).flatMap
    (fun i => [Ev.read i (extractTask (reads i)), Ev.wait delays[i]?])
    ++ [Ev.read j (extractTask (reads j))]

lemma verifyTrace_self (reads : Nat → RespData) (a : Nat) :
    verifyTrace reads a a = [Ev.read a (extractTask (reads a))] := by
  simp [verifyTrace]

lemma verifyTrace_cons (reads : Nat → RespData) {a j : Nat} (h : a < j) :
    verifyTrace reads a j =
      Ev.read a (extractTask (reads a)) :: Ev.wait delays[a]? ::
        verifyTrace reads (a + 1) j := by
  unfold verifyTrace
  have h1 : j - a = (j - (a + 1)) + 1 := by omega
  rw [h1, List.range'_succ]
  simp

/-- Closed form of the verifier loop: from any start attempt `a ≤
maxRetries` it returns (never throws) the read of some attempt `j` between
`a` and `maxRetries`, with the alternating trace `verifyTrace reads a j`,
where `j` is the first matching attempt, or `maxRetries` when none
matches. -/
lemma verifyGo_spec (reads : Nat → RespData) (expected : Bool)
    (maxRetries : Nat) :
    ∀ k a, a ≤ maxRetries → maxRetries - a = k →
      ∃ j, a ≤ j ∧ j ≤ maxRetries ∧
        verifyGo reads expected maxRetries a =
          Except.ok ⟨extractTask (reads j), j, verifyTrace reads a j⟩ ∧
        (normCompleted (extractTask (reads j)).is_completed = expected ∨
          j = maxRetries) ∧
        ∀ i, a ≤ i → i < j →
          normCompleted (extractTask (reads i)).is_completed ≠ expected := by
  intro k
  induction k with
  | zero =>
    intro a ha hk
    by_cases hm : normCompleted (extractTask (reads a)).is_completed = expected
    · refine ⟨a, le_refl a, ha, ?_, Or.inl hm, by omega⟩
      rw [verifyGo, dif_pos ha]
      simp only []
      rw [if_pos hm, verifyTrace_self]
    · refine ⟨a, le_refl a, ha, ?_, Or.inr (by omega), by omega⟩
      rw [verifyGo, dif_pos ha]
      simp only []
      rw [if_neg hm, dif_neg (by omega), verifyTrace_self]
  | succ k ih =>
    intro a ha hk
    by_cases hm : normCompleted (extractTask (reads a)).is_completed = expected
    · refine ⟨a, le_refl a, ha, ?_, Or.inl hm, by omega⟩
      rw [verifyGo, dif_pos ha]
      simp only []
      rw [if_pos hm, verifyTrace_self]
    · have hlt : a < maxRetries := by omega
      obtain ⟨j, hj1, hj2, heq, hlast, hnom⟩ := ih (a + 1) (by omega) (by omega)
      refine ⟨j, by omega, hj2, ?_, hlast, ?_⟩
      · rw [verifyGo, dif_pos ha]
        simp only []
        rw [if_neg hm, dif_pos hlt, heq, verifyTrace_cons reads (show a < j by omega)]
      · intro i hi1 hi2
        rcases Nat.eq_or_lt_of_le hi1 with h | h
        · rw [← h]; exact hm
        · exact hnom i (by omega) hi2

lemma verifyTrace_head_shape (reads : Nat → RespData) {a j : Nat} (h : a ≤ j) :
    ∃ tl, verifyTrace reads a j = Ev.read a (extractTask (reads a)) :: tl := by
  rcases Nat.lt_or_ge a j with h' | h'
  · exact ⟨_, verifyTrace_cons reads h'⟩
  · have heq : a = j := by omega
    subst heq
    exact ⟨[], verifyTrace_self reads a⟩

lemma readCount_verifyTrace (reads : Nat → RespData) :
    ∀ n a, readCount (verifyTrace reads a (a + n)) = n + 1 := by
  intro n
  induction n with
  | zero =>
    intro a
    simp [verifyTrace_self, readCount, Ev.isRead]
  | succ n ih =>
    intro a
    rw [(by omega : a + (n + 1) = (a + 1) + n), verifyTrace_cons reads (by omega)]
    have h := ih (a + 1)
    simp [readCount, Ev.isRead, List.filter_cons] at h ⊢
    omega

lemma waitsOf_verifyTrace (reads : Nat → RespData) :
    ∀ n a, waitsOf (verifyTrace reads a (a + n)) =
      (List.range' a n).map (fun i => delays[i]?) := by
  intro n
  induction n with
  | zero =>
    intro a
    simp [verifyTrace_self, waitsOf, Ev.waitArg]
  | succ n ih =>
    intro a
    rw [(by omega : a + (n + 1) = (a + 1) + n), verifyTrace_cons reads (by omega),
      List.range'_succ]
    have h := ih (a + 1)
    simp [waitsOf, Ev.waitArg, List.filterMap_cons] at h ⊢
    exact h

lemma chain'_verifyTrace (reads : Nat → RespData) :
    ∀ n a, List.Chain' (fun e1 e2 => e1.isRead || e2.isRead)
      (verifyTrace reads a (a + n)) := by
  intro n
  induction n with
  | zero =>
    intro a
    simp [verifyTrace_self]
  | succ n ih =>
    intro a
    rw [(by omega : a + (n + 1) = (a + 1) + n), verifyTrace_cons reads (by omega)]
    obtain ⟨tl, htl⟩ := verifyTrace_head_shape reads (show a + 1 ≤ a + 1 + n by omega)
    rw [htl, List.chain'_cons, List.chain'_cons]
    refine ⟨by simp [Ev.isRead], by simp [Ev.isRead], ?_⟩
    rw [← htl]
    exact ih (a + 1)

lemma getLast_verifyTrace (reads : Nat → RespData) (a j : Nat) :
    (verifyTrace reads a j).getLast? =
      some (Ev.read j (extractTask (reads j))) := by
  unfold verifyTrace
  exact List.getLast?_concat _

/-- C10: for every `max_retries ≥ 0` and every sequence of read results
the verifier returns a task record from within its retry loop (on a match,
or on the final attempt without a match), so the `ACTaskError` 'Failed to
verify task status after retries' thrown after the loop
(`verifyExhaustedErr`) is unreachable. -/
theorem claim_C10_post_loop_throw_unreachable (reads : Nat → RespData)
    (expected : Bool) (maxRetries : Nat) :
    (∃ r : VerifyRun,
      verifyTaskStatus reads expected maxRetries = Except.ok r) ∧
    verifyTaskStatus reads expected maxRetries ≠
      Except.error verifyExhaustedErr := by
  obtain ⟨j, -, -, heq, -, -⟩ :=
    verifyGo_spec reads expected maxRetries maxRetries 0 (by omega) (by omega)
  refine ⟨⟨_, heq⟩, ?_⟩
  rw [verifyTaskStatus, heq]
  intro hcontra
  exact Except.noConfusion hcontra

/-- C2: the consistency verifier with `max_retries = n` issues at most `n`
reads beyond the first (at most `n + 1` in total): it returns the read of
the first matching attempt `j` (or of attempt `n` when none matches), its
trace is reads `0..j` with the delay `delays[k]` strictly between read `k`
and read `k + 1` — in particular 500, 1000, 2000 ms for the first three
backoffs — the trace alternates and ends with a read so no delay follows
the final read, and a read whose normalized completion state equals the
expected state ends the run immediately with no further reads or delays. -/
theorem claim_C2_bounded_retry (reads : Nat → RespData) (expected : Bool)
    (n : Nat) :
    ∃ j, j ≤ n ∧
      verifyTaskStatus reads expected n =
        Except.ok ⟨extractTask (reads j), j, verifyTrace reads 0 j⟩ ∧
      readCount (verifyTrace reads 0 j) = j + 1 ∧
      waitsOf (verifyTrace reads 0 j) =
        (List.range j).map (fun k => delays[k]?) ∧
      delays = [500, 1000, 2000] ∧
      (verifyTrace reads 0 j).getLast? =
        some (Ev.read j (extractTask (reads j))) ∧
      List.Chain' (fun e1 e2 => e1.isRead || e2.isRead)
        (verifyTrace reads 0 j) ∧
      (normCompleted (extractTask (reads j)).is_completed = expected ∨
        j = n) ∧
      (∀ i, i < j →
        normCompleted (extractTask (reads i)).is_completed ≠ expected) ∧
      (normCompleted (extractTask (reads 0)).is_completed = expected →
        j = 0) := by
  obtain ⟨j, -, hj2, heq, hlast, hnom⟩ :=
    verifyGo_spec reads expected n n 0 (by omega) (by omega)
  refine ⟨j, hj2, heq, ?_, ?_, rfl, getLast_verifyTrace reads 0 j, ?_, hlast,
    ?_, ?_⟩
  · have h := readCount_verifyTrace reads j 0
    simpa using h
  · have h := waitsOf_verifyTrace reads j 0
    rw [List.range_eq_range']
    simpa using h
  · have h := chain'_verifyTrace reads j 0
    simpa using h
  · intro i hi
    exact hnom i (by omega) hi
  · intro h0
    by_contra hne
    exact hnom 0 (by omega) (by omega) h0

/-- C1 (counterexample): the canonical call fails with HTTP 401 — an auth
failure, not a routing 404/405 — yet the fallback generic update is
invoked and the run succeeds with the fallback's task, instead of the 401
error being propagated with no fallback: the client interceptor wraps the
401 into an `ACTaskError` and the guard `err instanceof ACTaskError`
accepts it. -/
theorem claim_C1_counterexample :
    (updateTaskCompletionStatus 1 7 true (Except.error (WireErr.http 401))
        (Except.ok (RespData.bare ⟨7, 34, "t", JsVal.jsBool true⟩))
        1700000000).calls =
      [⟨Endpoint.completeTask 7, PutBody.empty⟩,
       ⟨Endpoint.projectTask 1 7, PutBody.completion 1 (some 1700000000)⟩] ∧
    (updateTaskCompletionStatus 1 7 true (Except.error (WireErr.http 401))
        (Except.ok (RespData.bare ⟨7, 34, "t", JsVal.jsBool true⟩))
        1700000000).result =
      Except.ok ⟨7, 34, "t", JsVal.jsBool true⟩ := by
  decide

/-- C1 (amended): every error thrown by the transport client — any HTTP
status (401, 404, 405, 5xx) and network failure alike — is an
`ACTaskError`, so whenever the canonical mutate call fails the fallback
generic update is invoked exactly once; when the canonical call succeeds
the fallback is never invoked; and when the invoked fallback itself fails
its error propagates. -/
theorem claim_C1_fallback_on_any_client_error (projectId taskId : Nat)
    (complete : Bool) (canonicalWire fallbackWire : Except WireErr RespData)
    (now : Nat) :
    (∀ r, canonicalWire = Except.ok r →
      (updateTaskCompletionStatus projectId taskId complete canonicalWire
        fallbackWire now).calls.filter PutCall.isFallback = []) ∧
    (∀ w, canonicalWire = Except.error w →
      fallbackGuard (ThrownErr.acErr (fromAxiosError w)) = true ∧
      ((updateTaskCompletionStatus projectId taskId complete canonicalWire
        fallbackWire now).calls.filter PutCall.isFallback).length = 1 ∧
      (∀ r, fallbackWire = Except.ok r →
        (updateTaskCompletionStatus projectId taskId complete canonicalWire
          fallbackWire now).result = Except.ok (extractTask r)) ∧
      (∀ e, fallbackWire = Except.error e →
        (updateTaskCompletionStatus projectId taskId complete canonicalWire
          fallbackWire now).result =
          Except.error (ThrownErr.acErr (fromAxiosError e)))) := by
  cases canonicalWire with
  | ok r =>
    cases fallbackWire <;>
      simp [updateTaskCompletionStatus, clientCall, PutCall.isFallback,
        fallbackGuard, canonicalEndpoint] <;> cases complete <;> simp
  | error w =>
    cases fallbackWire <;>
      simp [updateTaskCompletionStatus, clientCall, PutCall.isFallback,
        fallbackGuard, canonicalEndpoint] <;> cases complete <;>
      simp [List.filter_cons, PutCall.isFallback]

/-- C5: the canonical state-specific endpoint is attempted before the
fallback is ever attempted: the first outbound call is a PUT with an empty
body to `/complete/task/{id}` for target complete and `/open/task/{id}`
for target open, it is not the fallback, any fallback call can only be the
second call, and on success the returned task record is extracted from
the response whether it is a bare object or wrapped under a `single`
key. -/
theorem claim_C5_canonical_first (projectId taskId : Nat) (complete : Bool)
    (canonicalWire fallbackWire : Except WireErr RespData) (now : Nat) :
    (updateTaskCompletionStatus projectId taskId complete canonicalWire
        fallbackWire now).calls.head? =
      some ⟨canonicalEndpoint taskId complete, PutBody.empty⟩ ∧
    canonicalEndpoint taskId true = Endpoint.completeTask taskId ∧
    canonicalEndpoint taskId false = Endpoint.openTask taskId ∧
    (canonicalEndpoint taskId complete = Endpoint.completeTask taskId ∨
      canonicalEndpoint taskId complete = Endpoint.openTask taskId) ∧
    PutCall.isFallback ⟨canonicalEndpoint taskId complete, PutBody.empty⟩ =
      false ∧
    (∀ c ∈ (updateTaskCompletionStatus projectId taskId complete
        canonicalWire fallbackWire now).calls, c.isFallback = true →
      (updateTaskCompletionStatus projectId taskId complete canonicalWire
        fallbackWire now).calls[1]? = some c) ∧
    (∀ r, canonicalWire = Except.ok r →
      (updateTaskCompletionStatus projectId taskId complete canonicalWire
        fallbackWire now).result = Except.ok (extractTask r)) ∧
    (∀ t, extractTask (RespData.bare t) = t ∧
      extractTask (RespData.wrapped t) = t) := by
  cases complete <;> cases canonicalWire <;> cases fallbackWire <;>
    simp [updateTaskCompletionStatus, clientCall, PutCall.isFallback,
      fallbackGuard, canonicalEndpoint, extractTask]

/-- C6: whenever the fallback generic update is invoked, it is the PUT to
`/projects/{project_id}/tasks/{task_id}` whose body sets both the
completion flag and the completion timestamp: `{ is_completed: 1,
completed_on: now }` for target complete and `{ is_completed: 0,
completed_on: null }` for target open, where `now` is the current unix
time in seconds. -/
theorem claim_C6_fallback_payload (projectId taskId now : Nat)
    (complete : Bool) (canonicalWire fallbackWire : Except WireErr RespData) :
    ∀ c ∈ (updateTaskCompletionStatus projectId taskId complete
        canonicalWire fallbackWire now).calls, c.isFallback = true →
      c = ⟨Endpoint.projectTask projectId taskId,
           if complete then PutBody.completion 1 (some now)
           else PutBody.completion 0 none⟩ := by
  cases complete <;> cases canonicalWire <;> cases fallbackWire <;>
    simp [updateTaskCompletionStatus, clientCall, PutCall.isFallback,
      fallbackGuard, canonicalEndpoint]

theorem claim_C6_fallback_payload_witness :
    (⟨Endpoint.projectTask 1 7, PutBody.completion 1 (some 1700000000)⟩ :
        PutCall) ∈
      (updateTaskCompletionStatus 1 7 true (Except.error (WireErr.http 404))
        (Except.ok (RespData.bare ⟨7, 34, "t", JsVal.jsBool true⟩))
        1700000000).calls ∧
    (⟨Endpoint.projectTask 1 7, PutBody.completion 1 (some 1700000000)⟩ :
        PutCall) =
      ⟨Endpoint.projectTask 1 7,
       if true then PutBody.completion 1 (some 1700000000)
       else PutBody.completion 0 none⟩ :=
  ⟨by decide,
   claim_C6_fallback_payload 1 7 1700000000 true
    (Except.error (WireErr.http 404))
    (Except.ok (RespData.bare ⟨7, 34, "t", JsVal.jsBool true⟩))
    ⟨Endpoint.projectTask 1 7, PutBody.completion 1 (some 1700000000)⟩
    (by decide) (by decide)⟩

/-- C9: every invocation of the endpoint resolver issues exactly one or
two outbound mutation calls, never more; the fallback is attempted at
most once; and if the fallback call itself fails its error propagates
with no further mutation attempt. -/
theorem claim_C9_one_or_two_calls (projectId taskId : Nat) (complete : Bool)
    (canonicalWire fallbackWire : Except WireErr RespData) (now : Nat) :
    ((updateTaskCompletionStatus projectId taskId complete canonicalWire
        fallbackWire now).calls.length = 1 ∨
      (updateTaskCompletionStatus projectId taskId complete canonicalWire
        fallbackWire now).calls.length = 2) ∧
    ((updateTaskCompletionStatus projectId taskId complete canonicalWire
        fallbackWire now).calls.filter PutCall.isFallback).length ≤ 1 ∧
    (∀ w e, canonicalWire = Except.error w → fallbackWire = Except.error e →
      (updateTaskCompletionStatus projectId taskId complete canonicalWire
        fallbackWire now).result =
        Except.error (ThrownErr.acErr (fromAxiosError e)) ∧
      (updateTaskCompletionStatus projectId taskId complete canonicalWire
        fallbackWire now).calls.length = 2) := by
  cases complete <;> cases canonicalWire <;> cases fallbackWire <;>
    simp [updateTaskCompletionStatus, clientCall, PutCall.isFallback,
      fallbackGuard, canonicalEndpoint]

/-- C3: when the remote state never matches the requested target state and
the mutation itself was accepted, the orchestrator does not raise: the
verifier returns the last-observed record (the read of final attempt 3)
after exhausting its retries, and the handler returns a successful outcome
with `success = false` and the warning attached rather than a fatal
error. -/
theorem claim_C3_nonconvergence_warns (projectId taskId : Nat) (sd : Bool)
    (canonicalWire fallbackWire : Except WireErr RespData) (now : Nat)
    (reads : Nat → RespData) (t : ACTask)
    (hmut : (updateTaskCompletionStatus projectId taskId sd canonicalWire
      fallbackWire now).result = Except.ok t)
    (hnc : ∀ i, normCompleted (extractTask (reads i)).is_completed ≠ sd) :
    verifyTaskStatus reads sd =
      Except.ok ⟨extractTask (reads 3), 3, verifyTrace reads 0 3⟩ ∧
    ∃ o : JsonOutcome,
      (updateStatusHandler projectId taskId sd canonicalWire fallbackWire
        now reads).result = Except.ok o ∧
      o.success = false ∧
      o.warning = some warningText ∧
      o.task = ⟨(extractTask (reads 3)).id, (extractTask (reads 3)).task_number,
        (extractTask (reads 3)).name,
        normCompleted (extractTask (reads 3)).is_completed⟩ := by
  obtain ⟨j, -, hj, heq, hlast, -⟩ := verifyGo_spec reads sd 3 3 0 (by omega) (by omega)
  have hj3 : j = 3 := by
    rcases hlast with h | h
    · exact absurd h (hnc j)
    · exact h
  subst hj3
  have hv : verifyTaskStatus reads sd =
      Except.ok ⟨extractTask (reads 3), 3, verifyTrace reads 0 3⟩ := heq
  refine ⟨hv, ⟨{ success := false
                 task := ⟨(extractTask (reads 3)).id,
                   (extractTask (reads 3)).task_number,
                   (extractTask (reads 3)).name,
                   normCompleted (extractTask (reads 3)).is_completed⟩
                 warning := some warningText }, ?_, rfl, rfl, rfl⟩⟩
  simp only [updateStatusHandler, hmut, hv]
  simp [hnc 3]

lemma normCompleted_open_sample :
    normCompleted (extractTask
      (RespData.bare ⟨7, 34, "t", JsVal.jsBool false⟩)).is_completed ≠ true := by
  decide

theorem claim_C3_nonconvergence_warns_witness :
    ((updateTaskCompletionStatus 1 7 true
        (Except.ok (RespData.bare ⟨7, 34, "t", JsVal.jsBool true⟩))
        (Except.ok (RespData.bare ⟨7, 34, "t", JsVal.jsBool true⟩))
        5).result = Except.ok ⟨7, 34, "t", JsVal.jsBool true⟩) ∧
    (verifyTaskStatus (fun _ => RespData.bare ⟨7, 34, "t", JsVal.jsBool false⟩)
        true =
      Except.ok ⟨extractTask (RespData.bare ⟨7, 34, "t", JsVal.jsBool false⟩),
        3, verifyTrace (fun _ => RespData.bare ⟨7, 34, "t", JsVal.jsBool false⟩)
          0 3⟩ ∧
    ∃ o : JsonOutcome,
      (updateStatusHandler 1 7 true
        (Except.ok (RespData.bare ⟨7, 34, "t", JsVal.jsBool true⟩))
        (Except.ok (RespData.bare ⟨7, 34, "t", JsVal.jsBool true⟩)) 5
        (fun _ => RespData.bare ⟨7, 34, "t", JsVal.jsBool false⟩)).result =
        Except.ok o ∧
      o.success = false ∧
      o.warning = some warningText ∧
      o.task = ⟨(extractTask (RespData.bare ⟨7, 34, "t", JsVal.jsBool false⟩)).id,
        (extractTask (RespData.bare ⟨7, 34, "t", JsVal.jsBool false⟩)).task_number,
        (extractTask (RespData.bare ⟨7, 34, "t", JsVal.jsBool false⟩)).name,
        normCompleted (extractTask
          (RespData.bare ⟨7, 34, "t", JsVal.jsBool false⟩)).is_completed⟩) :=
  ⟨by decide,
   claim_C3_nonconvergence_warns 1 7 true
    (Except.ok (RespData.bare ⟨7, 34, "t", JsVal.jsBool true⟩))
    (Except.ok (RespData.bare ⟨7, 34, "t", JsVal.jsBool true⟩)) 5
    (fun _ => RespData.bare ⟨7, 34, "t", JsVal.jsBool false⟩)
    ⟨7, 34, "t", JsVal.jsBool true⟩ (by decide)
    (fun _ => normCompleted_open_sample)⟩

/-- C8: in every orchestrator run the resolver's mutation calls all come
strictly before whatever verifier events follow (the steps are the
mutation PUTs followed by non-PUT verifier events), and when the resolver
raises, no verifier read is issued at all. -/
theorem claim_C8_mutation_before_reads (projectId taskId : Nat) (sd : Bool)
    (canonicalWire fallbackWire : Except WireErr RespData) (now : Nat)
    (reads : Nat → RespData) :
    ∃ post,
      (updateStatusHandler projectId taskId sd canonicalWire fallbackWire
        now reads).steps =
        ((updateTaskCompletionStatus projectId taskId sd canonicalWire
          fallbackWire now).calls.map Step.put) ++ post ∧
      (∀ s ∈ post, s.isPut = false) ∧
      (∀ s ∈ (updateTaskCompletionStatus projectId taskId sd canonicalWire
        fallbackWire now).calls.map Step.put, s.isPut = true) ∧
      (∀ e, (updateTaskCompletionStatus projectId taskId sd canonicalWire
        fallbackWire now).result = Except.error e → post = []) := by
  cases hm : (updateTaskCompletionStatus projectId taskId sd canonicalWire
      fallbackWire now).result with
  | error e =>
    refine ⟨[], ?_, by simp, ?_, fun _ _ => rfl⟩
    · simp only [updateStatusHandler, hm, List.append_nil]
    · intro s hs
      simp only [List.mem_map] at hs
      obtain ⟨c, -, rfl⟩ := hs
      rfl
  | ok t =>
    obtain ⟨j, -, -, heq, -, -⟩ := verifyGo_spec reads sd 3 3 0 (by omega) (by omega)
    have hv : verifyTaskStatus reads sd =
        Except.ok ⟨extractTask (reads j), j, verifyTrace reads 0 j⟩ := heq
    refine ⟨(verifyTrace reads 0 j).map Step.verify, ?_, ?_, ?_, ?_⟩
    · simp only [updateStatusHandler, hm, hv]
    · intro s hs
      simp only [List.mem_map] at hs
      obtain ⟨e, -, rfl⟩ := hs
      rfl
    · intro s hs
      simp only [List.mem_map] at hs
      obtain ⟨c, -, rfl⟩ := hs
      rfl
    · intro e he
      exact absurd he (by simp)

/-- C4 (counterexample): the scenario of the spec — target open, canonical
endpoint succeeds, first read still completed, second read open — ends
with the JSON outcome `{ success: true, task: {...} }`: its keys are only
`success` and `task`, and no `attempts_used` field is reported, although
the verifier consumed one retry. -/
theorem claim_C4_counterexample :
    (updateStatusHandler 1 7 false
        (Except.ok (RespData.bare ⟨7, 34, "t", JsVal.jsBool true⟩))
        (Except.ok (RespData.bare ⟨7, 34, "t", JsVal.jsBool true⟩)) 5
        (fun i => if i = 0 then RespData.bare ⟨7, 34, "t", JsVal.jsBool true⟩
          else RespData.bare ⟨7, 34, "t", JsVal.jsBool false⟩)).result =
      Except.ok ⟨true, ⟨7, 34, "t", false⟩, none⟩ ∧
    "attempts_used" ∉ outcomeKeys ⟨true, ⟨7, 34, "t", false⟩, none⟩ := by
  constructor
  · simp [updateStatusHandler, updateTaskCompletionStatus, clientCall,
      extractTask, verifyTaskStatus, verifyGo, normCompleted,
      canonicalEndpoint, fallbackGuard]
  · decide

/-- C4 (amended): the outcome returned to the caller contains the matched
flag (`success`, true exactly when the final normalized state equals the
target) and the final task record of some verifier attempt `j ≤ 3`, but no
`attempts_used` field: the attempt count is tracked inside the verifier
and never surfaced in the outcome object. -/
theorem claim_C4_outcome_fields (projectId taskId : Nat) (sd : Bool)
    (canonicalWire fallbackWire : Except WireErr RespData) (now : Nat)
    (reads : Nat → RespData) (o : JsonOutcome)
    (h : (updateStatusHandler projectId taskId sd canonicalWire fallbackWire
      now reads).result = Except.ok o) :
    "attempts_used" ∉ outcomeKeys o ∧
    "success" ∈ outcomeKeys o ∧
    "task" ∈ outcomeKeys o ∧
    ∃ j, j ≤ 3 ∧
      o.success =
        decide (normCompleted (extractTask (reads j)).is_completed = sd) ∧
      o.task = ⟨(extractTask (reads j)).id, (extractTask (reads j)).task_number,
        (extractTask (reads j)).name,
        normCompleted (extractTask (reads j)).is_completed⟩ := by
  cases hm : (updateTaskCompletionStatus projectId taskId sd canonicalWire
      fallbackWire now).result with
  | error e =>
    simp only [updateStatusHandler, hm] at h
    exact absurd h (by simp)
  | ok t =>
    obtain ⟨j, -, hj, heq, -, -⟩ := verifyGo_spec reads sd 3 3 0 (by omega) (by omega)
    have hv : verifyTaskStatus reads sd =
        Except.ok ⟨extractTask (reads j), j, verifyTrace reads 0 j⟩ := heq
    simp only [updateStatusHandler, hm, hv] at h
    injection h with h
    subst h
    refine ⟨?_, ?_, ?_, j, hj, rfl, rfl⟩
    · by_cases hc : normCompleted (extractTask (reads j)).is_completed = sd <;>
        simp [outcomeKeys, hc]
    · simp [outcomeKeys]
    · simp [outcomeKeys]

theorem claim_C4_outcome_fields_witness :
    (updateStatusHandler 1 7 false
        (Except.ok (RespData.bare ⟨7, 34, "t", JsVal.jsBool true⟩))
        (Except.ok (RespData.bare ⟨7, 34, "t", JsVal.jsBool true⟩)) 5
        (fun i => if i = 0 then RespData.bare ⟨7, 34, "t", JsVal.jsBool true⟩
          else RespData.bare ⟨7, 34, "t", JsVal.jsBool false⟩)).result =
      Except.ok ⟨true, ⟨7, 34, "t", false⟩, none⟩ ∧
    "attempts_used" ∉ outcomeKeys ⟨true, ⟨7, 34, "t", false⟩, none⟩ := by
  have hp : (updateStatusHandler 1 7 false
      (Except.ok (RespData.bare ⟨7, 34, "t", JsVal.jsBool true⟩))
      (Except.ok (RespData.bare ⟨7, 34, "t", JsVal.jsBool true⟩)) 5
      (fun i => if i = 0 then RespData.bare ⟨7, 34, "t", JsVal.jsBool true⟩
        else RespData.bare ⟨7, 34, "t", JsVal.jsBool false⟩)).result =
      Except.ok ⟨true, ⟨7, 34, "t", false⟩, none⟩ := by
    simp [updateStatusHandler, updateTaskCompletionStatus, clientCall,
      extractTask, verifyTaskStatus, verifyGo, normCompleted,
      canonicalEndpoint, fallbackGuard]
  exact ⟨hp, (claim_C4_outcome_fields 1 7 false _ _ 5 _ _ hp).1⟩

lemma first_hit_unique (mr j j' : Nat) (M M' : Nat → Prop)
    (hMM : ∀ i, M i ↔ M' i) (h1 : j ≤ mr) (h2 : M j ∨ j = mr)
    (h3 : ∀ i, i < j → ¬ M i) (h1' : j' ≤ mr) (h2' : M' j' ∨ j' = mr)
    (h3' : ∀ i, i < j' → ¬ M' i) : j = j' := by
  by_contra hne
  rcases Nat.lt_or_ge j j' with h | h
  · have hnm : ¬ M' j := h3' j h
    rcases h2 with hmj | hmj
    · exact hnm ((hMM j).mp hmj)
    · omega
  · have hlt : j' < j := by omega
    have hnm : ¬ M j' := h3 j' hlt
    rcases h2' with hmj | hmj
    · exact hnm ((hMM j').mpr hmj)
    · omega

lemma verify_congr (reads reads' : Nat → RespData) (e : Bool) (n : Nat)
    (hpt : ∀ i, normCompleted (extractTask (reads i)).is_completed =
      normCompleted (extractTask (reads' i)).is_completed) :
    ∃ j, j ≤ n ∧
      verifyTaskStatus reads e n =
        Except.ok ⟨extractTask (reads j), j, verifyTrace reads 0 j⟩ ∧
      verifyTaskStatus reads' e n =
        Except.ok ⟨extractTask (reads' j), j, verifyTrace reads' 0 j⟩ := by
  obtain ⟨j, -, hj, heq, hlast, hnom⟩ := verifyGo_spec reads e n n 0 (by omega) (by omega)
  obtain ⟨j', -, hj', heq', hlast', hnom'⟩ :=
    verifyGo_spec reads' e n n 0 (by omega) (by omega)
  have hjj : j = j' := by
    refine first_hit_unique n j j'
      (fun i => normCompleted (extractTask (reads i)).is_completed = e)
      (fun i => normCompleted (extractTask (reads' i)).is_completed = e)
      (fun i => by simp only []; rw [hpt i]) hj hlast
      (fun i hi => hnom i (by omega) hi)
      hj' hlast' (fun i hi => hnom' i (by omega) hi)
  subst hjj
  exact ⟨j, hj, heq, heq'⟩

/-- C7: the completion flag encodings `true`/`1` normalize to completed and
`false`/`0` normalize to open, and the two encodings are interchangeable
everywhere: read sequences whose flags normalize pointwise equal drive the
verifier to the same attempt index and the same normalized final state,
and drive the orchestrator to the same `success` flag, the same warning,
and the same normalized flag in the output task. -/
theorem claim_C7_normalization_interchangeable :
    normCompleted (JsVal.jsBool true) = true ∧
    normCompleted (JsVal.jsNum 1) = true ∧
    normCompleted (JsVal.jsBool false) = false ∧
    normCompleted (JsVal.jsNum 0) = false ∧
    (∀ reads reads' : Nat → RespData, ∀ e : Bool, ∀ n : Nat,
      ∀ r r' : VerifyRun,
      (∀ i, normCompleted (extractTask (reads i)).is_completed =
        normCompleted (extractTask (reads' i)).is_completed) →
      verifyTaskStatus reads e n = Except.ok r →
      verifyTaskStatus reads' e n = Except.ok r' →
      r.attemptsUsed = r'.attemptsUsed ∧
      normCompleted r.task.is_completed =
        normCompleted r'.task.is_completed) ∧
    (∀ projectId taskId : Nat, ∀ sd : Bool,
      ∀ canonicalWire fallbackWire : Except WireErr RespData, ∀ now : Nat,
      ∀ reads reads' : Nat → RespData, ∀ o o' : JsonOutcome,
      (∀ i, normCompleted (extractTask (reads i)).is_completed =
        normCompleted (extractTask (reads' i)).is_completed) →
      (updateStatusHandler projectId taskId sd canonicalWire fallbackWire
        now reads).result = Except.ok o →
      (updateStatusHandler projectId taskId sd canonicalWire fallbackWire
        now reads').result = Except.ok o' →
      o.success = o'.success ∧ o.warning = o'.warning ∧
      o.task.is_completed = o'.task.is_completed) := by
  refine ⟨by decide, by decide, by decide, by decide, ?_, ?_⟩
  · intro reads reads' e n r r' hpt hr hr'
    obtain ⟨j, -, h1, h2⟩ := verify_congr reads reads' e n hpt
    rw [h1] at hr
    rw [h2] at hr'
    injection hr with hr
    injection hr' with hr'
    subst hr
    subst hr'
    exact ⟨rfl, hpt j⟩
  · intro projectId taskId sd canonicalWire fallbackWire now reads reads'
      o o' hpt ho ho'
    cases hm : (updateTaskCompletionStatus projectId taskId sd canonicalWire
        fallbackWire now).result with
    | error e =>
      simp only [updateStatusHandler, hm] at ho
      exact absurd ho (by simp)
    | ok t =>
      obtain ⟨j, -, h1, h2⟩ := verify_congr reads reads' sd 3 hpt
      simp only [updateStatusHandler, hm, h1] at ho
      simp only [updateStatusHandler, hm, h2] at ho'
      injection ho with ho
      injection ho' with ho'
      subst ho
      subst ho'
      refine ⟨by simp [hpt j], by simp [hpt j], by simp [hpt j]⟩

end ACTaskCLI
